import Mathlib

/-!
Normality-ensemble engine: formal model and verification.

The repository's normality engine (TesteNormalidade) runs three
goodness-of-fit estimators (Shapiro-Wilk with Royston's approximation,
Anderson-Darling, Kolmogorov-Smirnov) on a numeric sample and combines
their verdicts by majority vote over the applicable tests.

The engine module itself ships outside the files available here; only its
README, its calling notebook (with a recorded run) and sibling notebooks
are present.  The definitions below are therefore modelled from the design
specification, with every transcendental ingredient (standard normal CDF,
natural logarithm, square root, Royston's polynomial transformation) kept
abstract as an Oracle parameter so that the combinatorial and decision
logic stays fully computable over ℚ.
-/

namespace Normalidade

/-- Modelled from the spec: the verdict emitted by the ensemble
(decisao_final), NORMAL or NOT_NORMAL. -/
inductive Decision where
  | NORMAL
  | NOT_NORMAL
  deriving Repr, DecidableEq

/-- Modelled from the spec: one estimator's outcome — applicability flag,
optional statistic, optional p-value, and the normality verdict. -/
structure TestOutcome where
  aplicavel : Bool
  estatistica : Option ℚ
  p_valor : Option ℚ
  normal : Bool
  deriving Repr, DecidableEq

/-- Modelled from the spec: an estimator either reports the distinguishable
degenerate-sample condition (zero sample variance) or a TestOutcome. -/
inductive TestResult where
  | degenerate
  | outcome (o : TestOutcome)
  deriving Repr, DecidableEq

/-- Modelled from the spec: errors surfaced to the caller by the ensemble
entry point — invalid alpha, or fewer than two applicable tests. -/
inductive EnsembleError where
  | invalidParameter
  | insufficientQuorum
  deriving Repr, DecidableEq

/-- Modelled from the spec: the structured ensemble result record. -/
structure EnsembleResult where
  tamanho_amostra : ℕ
  alpha : ℚ
  shapiro_wilk : TestResult
  anderson_darling : TestResult
  kolmogorov_smirnov : TestResult
  decisao_final : Decision
  deriving Repr, DecidableEq

/-- Modelled from the spec: the numerical ingredients the estimators need
but whose closed forms the design leaves to library code — the standard
normal CDF phi, the natural logarithm log, the square root sqrt, and
Royston's order-statistic weighting (roystonW, producing W) together with
his normalizing transformation (roystonZ, producing the z-score). -/
structure Oracle where
  phi : ℚ → ℚ
  log : ℚ → ℚ
  sqrt : ℚ → ℚ
  roystonW : List ℚ → ℚ
  roystonZ : List ℚ → ℚ

/-- Insert a rational into an already sorted list. -/
def insort (x : ℚ) : List ℚ → List ℚ
  | [] => [x]
  | y :: ys => if x ≤ y then x :: y :: ys else y :: insort x ys

/-- Sort a sample ascending (all three estimators work on sorted order). -/
def sortList : List ℚ → List ℚ
  | [] => []
  | x :: xs => insort x (sortList xs)

/-- Sum of a list of rationals. -/
def listSum (xs : List ℚ) : ℚ := xs.foldr (· + ·) 0

/-- Sample mean. -/
def sampleMean (xs : List ℚ) : ℚ := listSum xs / xs.length

/-- Sample variance (denominator n − 1; 0 on degenerate sizes since the
numerator already vanishes there). -/
def sampleVariance (xs : List ℚ) : ℚ :=
  listSum (xs.map (fun x => (x - sampleMean xs) ^ 2)) / ((xs.length : ℚ) - 1)

/-- Sorted sample standardized by sample mean and standard deviation. -/
def sortedStandardized (o : Oracle) (xs : List ℚ) : List ℚ :=
  (sortList xs).map (fun x => (x - sampleMean xs) / o.sqrt (sampleVariance xs))

/-- CDF values of the sorted standardized observations. -/
def phiValues (o : Oracle) (xs : List ℚ) : List ℚ :=
  (sortedStandardized o xs).map o.phi

/-- Modelled from the spec: the Anderson-Darling statistic as the engine
computes it — 0-based accumulation over the CDF values of the sorted
standardized sample. -/
def andersonA2 (o : Oracle) (xs : List ℚ) : ℚ :=
  -(xs.length : ℚ) - (1 / (xs.length : ℚ)) *
    ∑ i ∈ Finset.range xs.length,
      ((2 * i + 1 : ℕ) : ℚ) *
        (o.log ((phiValues o xs).getD i 0) +
          o.log (1 - (phiValues o xs).getD (xs.length - 1 - i) 0))

/-- The spec's 1-based Φ_j: the CDF value of the j-th sorted standardized
observation. -/
def specPhi (o : Oracle) (xs : List ℚ) (j : ℕ) : ℚ := (phiValues o xs).getD (j - 1) 0

/-- The spec's own wording of the Anderson-Darling formula, 1-based:
A² = −n − (1/n)·Σ_{j=1..n} (2j−1)·[ln(Φ_j) + ln(1 − Φ_{n+1−j})], where
Φ_j is the CDF value of the j-th sorted standardized observation. -/
def andersonA2Spec (o : Oracle) (xs : List ℚ) : ℚ :=
  -(xs.length : ℚ) - (1 / (xs.length : ℚ)) *
    ∑ i ∈ Finset.range xs.length,
      (2 * ((i : ℚ) + 1) - 1) *
        (o.log (specPhi o xs (i + 1)) +
          o.log (1 - specPhi o xs (xs.length + 1 - (i + 1))))

/-- Modelled from the spec: the Kolmogorov-Smirnov D statistic — the
greatest vertical distance between the empirical CDF steps (i/n and
(i−1)/n in 1-based terms) and the theoretical normal CDF at each sorted
standardized point. -/
def ksD (o : Oracle) (xs : List ℚ) : ℚ :=
  (List.range xs.length).foldr
    (fun i m =>
      max m (max |((i + 1 : ℕ) : ℚ) / (xs.length : ℚ) - (phiValues o xs).getD i 0|
                 |((i : ℕ) : ℚ) / (xs.length : ℚ) - (phiValues o xs).getD i 0|)) 0

/-- Modelled from the spec: simplified Anderson-Darling critical values
keyed by the conventional alpha levels 0.10 / 0.05 / 0.025 / 0.01, with the
0.05 entry as documented fallback. -/
def adCritical (alpha : ℚ) : ℚ :=
  if alpha = 1 / 10 then 631 / 1000
  else if alpha = 1 / 20 then 752 / 1000
  else if alpha = 1 / 40 then 873 / 1000
  else if alpha = 1 / 100 then 1035 / 1000
  else 752 / 1000

/-- Modelled from the spec: the per-alpha constants c(alpha) of the
simplified asymptotic Kolmogorov-Smirnov critical value c(alpha)/√n,
with the 0.05 entry (≈ 1.36) as documented fallback. -/
def ksConstant (alpha : ℚ) : ℚ :=
  if alpha = 1 / 10 then 122 / 100
  else if alpha = 1 / 20 then 136 / 100
  else if alpha = 1 / 40 then 148 / 100
  else if alpha = 1 / 100 then 163 / 100
  else 136 / 100

/-- Modelled from the spec: Shapiro-Wilk decision — normal iff the p-value
is at least alpha. -/
def shapiroDecide (alpha p : ℚ) : Bool := decide (alpha ≤ p)

/-- Modelled from the spec: Anderson-Darling decision — normal iff A² is
strictly below the simplified critical value for alpha. -/
def adDecide (alpha a2 : ℚ) : Bool := decide (a2 < adCritical alpha)

/-- Modelled from the spec: Kolmogorov-Smirnov decision — normal iff D is
strictly below c(alpha)/√n (the square root supplied by the oracle). -/
def ksDecide (alpha d sqrtN : ℚ) : Bool := decide (d < ksConstant alpha / sqrtN)

/-- Modelled from the spec: Royston's p-value, p = 1 − Φ(z) with z the
normalized transform of the W statistic on the sorted sample. -/
def shapiroP (o : Oracle) (xs : List ℚ) : ℚ := 1 - o.phi (o.roystonZ (sortList xs))

/-- Modelled from the spec: realizar_teste_shapiro — degenerate samples
are reported as such before any division; otherwise the test is applicable
exactly for 3 ≤ n ≤ 5000 (Royston's ceiling), in which case Royston's W and
the p-value p = 1 − Φ(z) are produced and normal = (p ≥ alpha); outside the
range the outcome is marked not applicable rather than raising an error. -/
def realizar_teste_shapiro (o : Oracle) (xs : List ℚ) (alpha : ℚ) : TestResult :=
  if sampleVariance xs = 0 then .degenerate
  else if 3 ≤ xs.length ∧ xs.length ≤ 5000 then
    .outcome ⟨true, some (o.roystonW (sortList xs)), some (shapiroP o xs),
      shapiroDecide alpha (shapiroP o xs)⟩
  else .outcome ⟨false, none, none, false⟩

/-- Modelled from the spec: realizar_teste_anderson_darling — degenerate
samples reported first; applicable for n ≥ 2; exposes A² and the decision,
no p-value. -/
def realizar_teste_anderson_darling (o : Oracle) (xs : List ℚ) (alpha : ℚ) : TestResult :=
  if sampleVariance xs = 0 then .degenerate
  else if 2 ≤ xs.length then
    .outcome ⟨true, some (andersonA2 o xs), none, adDecide alpha (andersonA2 o xs)⟩
  else .outcome ⟨false, none, none, false⟩

/-- Modelled from the spec: realizar_teste_kolmogorov_smirnov —
degenerate samples reported first; applicable for n ≥ 1; exposes D and the
decision D < c(alpha)/√n, no p-value. -/
def realizar_teste_kolmogorov_smirnov (o : Oracle) (xs : List ℚ) (alpha : ℚ) : TestResult :=
  if sampleVariance xs = 0 then .degenerate
  else if 1 ≤ xs.length then
    .outcome ⟨true, some (ksD o xs), none,
      ksDecide alpha (ksD o xs) (o.sqrt (xs.length : ℚ))⟩
  else .outcome ⟨false, none, none, false⟩

/-- The vote an estimator contributes: applicable outcomes contribute their
normality flag, degenerate or inapplicable ones contribute nothing. -/
def votesOf : TestResult → List Bool
  | .degenerate => []
  | .outcome o => if o.aplicavel then [o.normal] else []

/-- Number of true entries in a vote list. -/
def countTrue (l : List Bool) : ℕ := (l.filter (fun b => b)).length

/-- Modelled from the spec: the majority combiner — with fewer than two
applicable tests the call fails with InsufficientQuorum; otherwise the
final decision is NORMAL exactly when the normal votes strictly exceed
half of the applicable-test count. -/
def combine (n : ℕ) (alpha : ℚ) (sw ad ks : TestResult) :
    Except EnsembleError EnsembleResult :=
  let votes := votesOf sw ++ votesOf ad ++ votesOf ks
  if votes.length < 2 then .error .insufficientQuorum
  else .ok ⟨n, alpha, sw, ad, ks,
    if votes.length < 2 * countTrue votes then .NORMAL else .NOT_NORMAL⟩

/-- Modelled from the spec: ensemble_normalidade — validates alpha, runs
the three estimators on the same sample and alpha, and combines. -/
def ensemble_normalidade (o : Oracle) (xs : List ℚ) (alpha : ℚ) :
    Except EnsembleError EnsembleResult :=
  if 0 < alpha ∧ alpha < 1 then
    combine xs.length alpha
      (realizar_teste_shapiro o xs alpha)
      (realizar_teste_anderson_darling o xs alpha)
      (realizar_teste_kolmogorov_smirnov o xs alpha)
  else .error .invalidParameter

/-- All votes cast for a given sample and alpha. -/
def allVotes (o : Oracle) (xs : List ℚ) (alpha : ℚ) : List Bool :=
  votesOf (realizar_teste_shapiro o xs alpha) ++
  votesOf (realizar_teste_anderson_darling o xs alpha) ++
  votesOf (realizar_teste_kolmogorov_smirnov o xs alpha)

/-- Final decision of an ensemble call, when one was produced. -/
def decisionOf : Except EnsembleError EnsembleResult → Option Decision
  | .ok r => some r.decisao_final
  | .error _ => none

/-- Normality flag of a test result, when an outcome was produced. -/
def normalFlagOf : TestResult → Option Bool
  | .degenerate => none
  | .outcome o => some o.normal

/-- Applicability flag of a test result, when an outcome was produced. -/
def aplicavelOf : TestResult → Option Bool
  | .degenerate => none
  | .outcome o => some o.aplicavel

/-- Statistic of a test result, when an outcome was produced. -/
def statOf : TestResult → Option ℚ
  | .degenerate => none
  | .outcome o => o.estatistica

/-- Modelled from the spec: the engine object — the sample is created once
at construction and immutable thereafter. -/
structure Engine where
  amostra : List ℚ

/-- Modelled from the spec: an ensemble call reads the immutable sample
and returns the result together with the (unchanged) engine state. -/
def ensembleCall (o : Oracle) (e : Engine) (alpha : ℚ) :
    Except EnsembleError EnsembleResult × Engine :=
  (ensemble_normalidade o e.amostra alpha, e)

/-- A concrete oracle used for witnesses. -/
def trivOracle : Oracle where
  phi := fun x => x
  log := fun _ => 0
  sqrt := fun _ => 1
  roystonW := fun _ => 0
  roystonZ := fun _ => 0


/-! Helper lemmas shared by the claim theorems. -/

theorem listSum_nil : listSum [] = 0 := rfl

theorem listSum_cons (x : ℚ) (xs : List ℚ) : listSum (x :: xs) = x + listSum xs := rfl

theorem listSum_eq_zero (xs : List ℚ) (h : ∀ x ∈ xs, x = 0) : listSum xs = 0 := by
  induction xs with
  | nil => rfl
  | cons y ys ih =>
    rw [listSum_cons, h y (List.mem_cons_self y ys), ih fun x hx => h x (List.mem_cons_of_mem y hx)]
    ring

theorem listSum_const (c : ℚ) (xs : List ℚ) (h : ∀ x ∈ xs, x = c) :
    listSum xs = c * xs.length := by
  induction xs with
  | nil => simp [listSum_nil]
  | cons y ys ih =>
    rw [listSum_cons, h y (List.mem_cons_self y ys),
      ih fun x hx => h x (List.mem_cons_of_mem y hx), List.length_cons]
    push_cast
    ring

theorem sampleMean_const (c : ℚ) (xs : List ℚ) (h : ∀ x ∈ xs, x = c) (hne : xs ≠ []) :
    sampleMean xs = c := by
  have hn : (xs.length : ℚ) ≠ 0 := by
    have : xs.length ≠ 0 := fun h0 => hne (List.length_eq_zero.mp h0)
    exact_mod_cast this
  rw [sampleMean, listSum_const c xs h, mul_div_assoc, div_self hn, mul_one]

theorem sampleVariance_const (c : ℚ) (xs : List ℚ) (h : ∀ x ∈ xs, x = c) :
    sampleVariance xs = 0 := by
  rcases xs with _ | ⟨y, ys⟩
  · simp [sampleVariance, listSum]
  · rw [sampleVariance, listSum_eq_zero, zero_div]
    intro x hx
    rcases List.mem_map.mp hx with ⟨a, ha, rfl⟩
    rw [h a ha, sampleMean_const c (y :: ys) h (List.cons_ne_nil y ys)]
    ring

theorem countTrue_cons (a : Bool) (l : List Bool) :
    countTrue (a :: l) = (if a then 1 else 0) + countTrue l := by
  cases a <;> simp [countTrue, List.filter, Nat.add_comm]

theorem decisionOf_combine (n : ℕ) (alpha : ℚ) (sw ad ks : TestResult) :
    decisionOf (combine n alpha sw ad ks) =
      if (votesOf sw ++ votesOf ad ++ votesOf ks).length < 2 then none
      else some (if (votesOf sw ++ votesOf ad ++ votesOf ks).length <
          2 * countTrue (votesOf sw ++ votesOf ad ++ votesOf ks)
        then Decision.NORMAL else Decision.NOT_NORMAL) := by
  simp only [combine]
  by_cases h : (votesOf sw ++ votesOf ad ++ votesOf ks).length < 2
  · rw [if_pos h, if_pos h]
    rfl
  · rw [if_neg h, if_neg h]
    rfl

theorem andersonA2_eq_spec (o : Oracle) (xs : List ℚ) :
    andersonA2 o xs = andersonA2Spec o xs := by
  unfold andersonA2 andersonA2Spec
  congr 1
  congr 1
  apply Finset.sum_congr rfl
  intro i _
  have h1 : specPhi o xs (i + 1) = (phiValues o xs).getD i 0 := by
    rw [specPhi, Nat.add_sub_cancel]
  have h2 : specPhi o xs (xs.length + 1 - (i + 1)) =
      (phiValues o xs).getD (xs.length - 1 - i) 0 := by
    have e : xs.length + 1 - (i + 1) - 1 = xs.length - 1 - i := by omega
    rw [specPhi, e]
  rw [h1, h2]
  push_cast
  ring

/-! Claim theorems. -/

/-- Claim C2: for every non-degenerate sample, the Shapiro-Wilk outcome's
aplicavel flag is true if and only if 3 ≤ n ≤ 5000; in particular for
n > 5000 the outcome is marked not applicable (an ordinary outcome, not an
error). -/
theorem shapiro_aplicavel_iff (o : Oracle) (xs : List ℚ) (alpha : ℚ)
    (hv : sampleVariance xs ≠ 0) :
    (aplicavelOf (realizar_teste_shapiro o xs alpha) = some true ↔
      3 ≤ xs.length ∧ xs.length ≤ 5000) ∧
    (5000 < xs.length →
      realizar_teste_shapiro o xs alpha = .outcome ⟨false, none, none, false⟩) := by
  unfold realizar_teste_shapiro
  rw [if_neg hv]
  by_cases h : 3 ≤ xs.length ∧ xs.length ≤ 5000
  · rw [if_pos h]
    exact ⟨⟨fun _ => h, fun _ => rfl⟩, fun h5 => absurd h5 (by omega)⟩
  · rw [if_neg h]
    refine ⟨⟨fun hc => ?_, fun hc => absurd hc h⟩, fun _ => rfl⟩
    simp [aplicavelOf] at hc

theorem shapiro_aplicavel_iff_witness :
    sampleVariance [0, 1, 2] ≠ 0 ∧
    ((aplicavelOf (realizar_teste_shapiro trivOracle [0, 1, 2] (1 / 20)) = some true ↔
        3 ≤ ([0, 1, 2] : List ℚ).length ∧ ([0, 1, 2] : List ℚ).length ≤ 5000) ∧
      (5000 < ([0, 1, 2] : List ℚ).length →
        realizar_teste_shapiro trivOracle [0, 1, 2] (1 / 20) =
          .outcome ⟨false, none, none, false⟩)) :=
  ⟨by norm_num [sampleVariance, sampleMean, listSum],
    shapiro_aplicavel_iff trivOracle [0, 1, 2] (1 / 20)
      (by norm_num [sampleVariance, sampleMean, listSum])⟩

/-- Claim C3: for every non-degenerate sample of size n ≥ 2, the
Anderson-Darling estimator's statistic equals the spec's formula
A² = −n − (1/n)·Σ_{i=1..n} (2i−1)·[ln(Φ_i) + ln(1 − Φ_{n+1−i})] over the
CDF values of the sorted standardized observations. -/
theorem anderson_statistic_eq_spec (o : Oracle) (xs : List ℚ) (alpha : ℚ)
    (hv : sampleVariance xs ≠ 0) (hn : 2 ≤ xs.length) :
    statOf (realizar_teste_anderson_darling o xs alpha) = some (andersonA2Spec o xs) := by
  unfold realizar_teste_anderson_darling
  rw [if_neg hv, if_pos hn]
  simp [statOf, andersonA2_eq_spec]

theorem anderson_statistic_eq_spec_witness :
    (sampleVariance [0, 1, 2] ≠ 0 ∧ 2 ≤ ([0, 1, 2] : List ℚ).length) ∧
    statOf (realizar_teste_anderson_darling trivOracle [0, 1, 2] (1 / 20)) =
      some (andersonA2Spec trivOracle [0, 1, 2]) :=
  ⟨⟨by norm_num [sampleVariance, sampleMean, listSum], by decide⟩,
    anderson_statistic_eq_spec trivOracle [0, 1, 2] (1 / 20)
      (by norm_num [sampleVariance, sampleMean, listSum]) (by decide)⟩

/-- Claim C7: for every constant sample (all observations equal, zero sample
variance) each of the three estimators reports the distinguishable
DegenerateSample condition instead of evaluating any standardization
division or propagating a meaningless statistic. -/
theorem constant_sample_degenerate (o : Oracle) (xs : List ℚ) (c alpha : ℚ)
    (hc : ∀ x ∈ xs, x = c) :
    realizar_teste_shapiro o xs alpha = .degenerate ∧
    realizar_teste_anderson_darling o xs alpha = .degenerate ∧
    realizar_teste_kolmogorov_smirnov o xs alpha = .degenerate := by
  have hv := sampleVariance_const c xs hc
  refine ⟨?_, ?_, ?_⟩ <;>
    simp [realizar_teste_shapiro, realizar_teste_anderson_darling,
      realizar_teste_kolmogorov_smirnov, hv]

theorem constant_sample_degenerate_witness :
    (∀ x ∈ ([2, 2, 2] : List ℚ), x = 2) ∧
    (realizar_teste_shapiro trivOracle [2, 2, 2] (1 / 20) = .degenerate ∧
      realizar_teste_anderson_darling trivOracle [2, 2, 2] (1 / 20) = .degenerate ∧
      realizar_teste_kolmogorov_smirnov trivOracle [2, 2, 2] (1 / 20) = .degenerate) :=
  ⟨by norm_num, constant_sample_degenerate trivOracle [2, 2, 2] 2 (1 / 20) (by norm_num)⟩

/-- Claim C9: evaluation is pure — an ensemble call on a constructed engine
leaves the engine (its immutable sample) unchanged, and a second call on
the returned engine yields a bit-identical result. -/
theorem ensemble_idempotent (o : Oracle) (e : Engine) (alpha : ℚ) :
    (ensembleCall o ((ensembleCall o e alpha).2) alpha).1 = (ensembleCall o e alpha).1 ∧
    (ensembleCall o e alpha).2 = e := ⟨rfl, rfl⟩

theorem votesOf_outcome (o : TestOutcome) :
    votesOf (.outcome o) = if o.aplicavel then [o.normal] else [] := rfl

theorem countTrue_append (l1 l2 : List Bool) :
    countTrue (l1 ++ l2) = countTrue l1 + countTrue l2 := by
  simp [countTrue, List.filter_append]

/-- Claim C1: for every sample and every valid alpha, the ensemble entry
point decides by majority vote over the applicable tests only — the final
decision is NORMAL exactly when the count of applicable normal votes
strictly exceeds half of the applicable-test count. -/
theorem ensemble_majority_rule (o : Oracle) (xs : List ℚ) (alpha : ℚ)
    (h0 : 0 < alpha) (h1 : alpha < 1) (hq : 2 ≤ (allVotes o xs alpha).length) :
    decisionOf (ensemble_normalidade o xs alpha) = some Decision.NORMAL ↔
      ((allVotes o xs alpha).length : ℚ) / 2 < countTrue (allVotes o xs alpha) := by
  have hkey : decisionOf (ensemble_normalidade o xs alpha) =
      if (allVotes o xs alpha).length < 2 then none
      else some (if (allVotes o xs alpha).length < 2 * countTrue (allVotes o xs alpha)
        then Decision.NORMAL else Decision.NOT_NORMAL) := by
    rw [ensemble_normalidade, if_pos ⟨h0, h1⟩, decisionOf_combine]
    rfl
  have harith : ((allVotes o xs alpha).length : ℚ) / 2 <
        countTrue (allVotes o xs alpha) ↔
      (allVotes o xs alpha).length < 2 * countTrue (allVotes o xs alpha) := by
    rw [div_lt_iff₀ (by norm_num : (0 : ℚ) < 2)]
    norm_cast
    omega
  rw [hkey, if_neg (by omega), harith]
  by_cases hc : (allVotes o xs alpha).length < 2 * countTrue (allVotes o xs alpha)
  · simp [hc]
  · simp [hc]

theorem ensemble_majority_rule_witness :
    (0 < (1 : ℚ) / 20 ∧ (1 : ℚ) / 20 < 1 ∧
      2 ≤ (allVotes trivOracle [0, 1, 2] (1 / 20)).length) ∧
    (decisionOf (ensemble_normalidade trivOracle [0, 1, 2] (1 / 20)) =
        some Decision.NORMAL ↔
      ((allVotes trivOracle [0, 1, 2] (1 / 20)).length : ℚ) / 2 <
        countTrue (allVotes trivOracle [0, 1, 2] (1 / 20))) :=
  ⟨⟨by norm_num, by norm_num,
      by norm_num [allVotes, realizar_teste_shapiro, realizar_teste_anderson_darling,
        realizar_teste_kolmogorov_smirnov, votesOf, sampleVariance, sampleMean, listSum]⟩,
    ensemble_majority_rule trivOracle [0, 1, 2] (1 / 20) (by norm_num) (by norm_num)
      (by norm_num [allVotes, realizar_teste_shapiro, realizar_teste_anderson_darling,
        realizar_teste_kolmogorov_smirnov, votesOf, sampleVariance, sampleMean, listSum])⟩

/-- Claim C4: for every non-degenerate sample of size n ≥ 1 and every alpha,
the Kolmogorov-Smirnov outcome's normal flag is true exactly when the D
statistic is strictly less than the simplified asymptotic critical value
c(alpha)/√n; the per-alpha constant at alpha = 0.05 is 1.36. -/
theorem ks_decision_iff (o : Oracle) (xs : List ℚ) (alpha : ℚ)
    (hv : sampleVariance xs ≠ 0) (hn : 1 ≤ xs.length) :
    (normalFlagOf (realizar_teste_kolmogorov_smirnov o xs alpha) = some true ↔
      ksD o xs < ksConstant alpha / o.sqrt (xs.length : ℚ)) ∧
    ksConstant (1 / 20) = 136 / 100 := by
  constructor
  · unfold realizar_teste_kolmogorov_smirnov
    rw [if_neg hv, if_pos hn]
    simp [normalFlagOf, ksDecide]
  · norm_num [ksConstant]

theorem ks_decision_iff_witness :
    (sampleVariance [0, 1] ≠ 0 ∧ 1 ≤ ([0, 1] : List ℚ).length) ∧
    ((normalFlagOf (realizar_teste_kolmogorov_smirnov trivOracle [0, 1] (1 / 20)) =
        some true ↔
      ksD trivOracle [0, 1] <
        ksConstant (1 / 20) / trivOracle.sqrt (([0, 1] : List ℚ).length : ℚ)) ∧
      ksConstant (1 / 20) = 136 / 100) :=
  ⟨⟨by norm_num [sampleVariance, sampleMean, listSum], by decide⟩,
    ks_decision_iff trivOracle [0, 1] (1 / 20)
      (by norm_num [sampleVariance, sampleMean, listSum]) (by decide)⟩

/-- Claim C6: when fewer than two of the three tests are applicable, the
ensemble call fails with the InsufficientQuorum error surfaced to the
caller and produces no EnsembleResult. -/
theorem insufficient_quorum_error (o : Oracle) (xs : List ℚ) (alpha : ℚ)
    (h0 : 0 < alpha) (h1 : alpha < 1) (hq : (allVotes o xs alpha).length < 2) :
    ensemble_normalidade o xs alpha = .error .insufficientQuorum := by
  rw [ensemble_normalidade, if_pos ⟨h0, h1⟩]
  have h : (votesOf (realizar_teste_shapiro o xs alpha) ++
      votesOf (realizar_teste_anderson_darling o xs alpha) ++
      votesOf (realizar_teste_kolmogorov_smirnov o xs alpha)).length < 2 := hq
  simp only [combine]
  rw [if_pos h]

theorem insufficient_quorum_error_witness :
    (0 < (1 : ℚ) / 20 ∧ (1 : ℚ) / 20 < 1 ∧
      (allVotes trivOracle [5] (1 / 20)).length < 2) ∧
    ensemble_normalidade trivOracle [5] (1 / 20) = .error .insufficientQuorum :=
  ⟨⟨by norm_num, by norm_num,
      by norm_num [allVotes, realizar_teste_shapiro, realizar_teste_anderson_darling,
        realizar_teste_kolmogorov_smirnov, votesOf, sampleVariance, sampleMean, listSum]⟩,
    insufficient_quorum_error trivOracle [5] (1 / 20) (by norm_num) (by norm_num)
      (by norm_num [allVotes, realizar_teste_shapiro, realizar_teste_anderson_darling,
        realizar_teste_kolmogorov_smirnov, votesOf, sampleVariance, sampleMean, listSum])⟩

theorem combine_normal_mono (n : ℕ) (a a2 : ℚ) (u v : TestOutcome) (ad ks : TestResult)
    (happ : v.aplicavel = u.aplicavel)
    (hmono : u.normal = true → v.normal = true)
    (h : decisionOf (combine n a (.outcome u) ad ks) = some Decision.NORMAL) :
    decisionOf (combine n a2 (.outcome v) ad ks) = some Decision.NORMAL := by
  rw [decisionOf_combine] at h ⊢
  rw [votesOf_outcome] at h ⊢
  rw [happ]
  by_cases ha : u.aplicavel = true
  · rw [if_pos ha] at h ⊢
    rw [List.append_assoc, List.singleton_append] at h ⊢
    have hcount : countTrue (u.normal :: (votesOf ad ++ votesOf ks)) ≤
        countTrue (v.normal :: (votesOf ad ++ votesOf ks)) := by
      rw [countTrue_cons, countTrue_cons]
      cases hu : u.normal
      · cases hv2 : v.normal <;> simp
      · rw [hmono hu]
    have hlen : (u.normal :: (votesOf ad ++ votesOf ks)).length =
        (v.normal :: (votesOf ad ++ votesOf ks)).length := by simp
    by_cases hL : (u.normal :: (votesOf ad ++ votesOf ks)).length < 2
    · rw [if_pos hL] at h
      exact absurd h (by simp)
    · rw [if_neg hL] at h
      rw [if_neg (hlen ▸ hL)]
      by_cases hC : (u.normal :: (votesOf ad ++ votesOf ks)).length <
          2 * countTrue (u.normal :: (votesOf ad ++ votesOf ks))
      · rw [if_pos (by omega : (v.normal :: (votesOf ad ++ votesOf ks)).length <
          2 * countTrue (v.normal :: (votesOf ad ++ votesOf ks)))]
      · rw [if_neg hC] at h
        exact absurd h (by simp)
  · rw [if_neg ha] at h ⊢
    exact h

/-- Claim C8: for a fixed sample, decreasing alpha (stricter significance)
never flips a NORMAL decision to NOT_NORMAL along the p-value-driven paths:
the Shapiro-Wilk verdict (p ≥ alpha) is monotone in alpha, and with the
other two votes held fixed so is the majority-vote final decision. -/
theorem alpha_monotone_normal (o : Oracle) (xs : List ℚ) (alpha alpha2 : ℚ)
    (ad ks : TestResult) (hle : alpha2 ≤ alpha) :
    (normalFlagOf (realizar_teste_shapiro o xs alpha) = some true →
      normalFlagOf (realizar_teste_shapiro o xs alpha2) = some true) ∧
    (decisionOf (combine xs.length alpha (realizar_teste_shapiro o xs alpha) ad ks) =
        some Decision.NORMAL →
      decisionOf (combine xs.length alpha2 (realizar_teste_shapiro o xs alpha2) ad ks) =
        some Decision.NORMAL) := by
  have hmono : shapiroDecide alpha (shapiroP o xs) = true →
      shapiroDecide alpha2 (shapiroP o xs) = true := by
    simp only [shapiroDecide, decide_eq_true_eq]
    intro h
    linarith
  by_cases hv : sampleVariance xs = 0
  · simp only [realizar_teste_shapiro, if_pos hv]
    refine ⟨fun h => absurd h (by simp [normalFlagOf]), fun h => ?_⟩
    rw [decisionOf_combine] at h ⊢
    exact h
  · by_cases hr : 3 ≤ xs.length ∧ xs.length ≤ 5000
    · simp only [realizar_teste_shapiro, if_neg hv, if_pos hr]
      constructor
      · intro h
        simp only [normalFlagOf, Option.some.injEq] at h ⊢
        exact hmono h
      · exact combine_normal_mono xs.length alpha alpha2 _ _ ad ks rfl hmono
    · simp only [realizar_teste_shapiro, if_neg hv, if_neg hr]
      refine ⟨fun h => h, fun h => ?_⟩
      rw [decisionOf_combine] at h ⊢
      exact h

theorem alpha_monotone_normal_witness :
    (1 : ℚ) / 100 ≤ 1 / 20 ∧
    ((normalFlagOf (realizar_teste_shapiro trivOracle [0, 1, 2] (1 / 20)) = some true →
        normalFlagOf (realizar_teste_shapiro trivOracle [0, 1, 2] (1 / 100)) = some true) ∧
      (decisionOf (combine ([0, 1, 2] : List ℚ).length (1 / 20)
          (realizar_teste_shapiro trivOracle [0, 1, 2] (1 / 20))
          (.outcome ⟨true, none, none, false⟩) (.outcome ⟨true, none, none, true⟩)) =
          some Decision.NORMAL →
        decisionOf (combine ([0, 1, 2] : List ℚ).length (1 / 100)
          (realizar_teste_shapiro trivOracle [0, 1, 2] (1 / 100))
          (.outcome ⟨true, none, none, false⟩) (.outcome ⟨true, none, none, true⟩)) =
          some Decision.NORMAL)) :=
  ⟨by norm_num,
    alpha_monotone_normal trivOracle [0, 1, 2] (1 / 20) (1 / 100)
      (.outcome ⟨true, none, none, false⟩) (.outcome ⟨true, none, none, true⟩)
      (by norm_num)⟩

/-- Recorded Shapiro-Wilk p-value of the notebook run (engine constructed
with mean 0.0455, stddev 1, n = 1000; alpha = 0.01). -/
def pRec : ℚ := 5000000021944261 / 10000000000000000

/-- Recorded Anderson-Darling statistic of the notebook run. -/
def a2Rec : ℚ := 10061999071128662 / 10000000000000

/-- Recorded Kolmogorov-Smirnov D statistic of the notebook run. -/
def dRec : ℚ := 1594408944605158 / 100000000000000000

/-- The Shapiro-Wilk outcome of the recorded run: the exposed statistic
field is 0.0 while the p-value is ≈ 0.5 and the verdict is normal. -/
def swRecOutcome : TestOutcome := ⟨true, some 0, some pRec, shapiroDecide (1 / 100) pRec⟩

/-- The Anderson-Darling outcome of the recorded run. -/
def adRecOutcome : TestOutcome := ⟨true, some a2Rec, none, adDecide (1 / 100) a2Rec⟩

/-- The Kolmogorov-Smirnov outcome of the recorded run, parameterized by
the square-root approximation s of √1000 used in the critical value. -/
def ksRecOutcome (s : ℚ) : TestOutcome := ⟨true, some dRec, none, ksDecide (1 / 100) dRec s⟩

/-- Claim C5: on the recorded run (mean 0.0455, stddev 1, n = 1000,
alpha = 0.01) the decision layer reproduces the recorded verdicts:
Shapiro-Wilk applicable with p-value within 1e-6 of 0.5 and normal;
Anderson-Darling statistic within 1e-3 of 1006.2 and not normal;
Kolmogorov-Smirnov statistic within 1e-4 of 0.0159 and normal; and the
final decision is NORMAL by a 2-of-3 majority — for every rational
square-root approximation s of √1000 with 31 ≤ s ≤ 32. -/
theorem recorded_run_scenario (s : ℚ) (h31 : 31 ≤ s) (h32 : s ≤ 32) :
    swRecOutcome.aplicavel = true ∧
    |pRec - 1 / 2| ≤ 1 / 1000000 ∧ swRecOutcome.normal = true ∧
    |a2Rec - 10062 / 10| ≤ 1 / 1000 ∧ adRecOutcome.normal = false ∧
    |dRec - 159 / 10000| ≤ 1 / 10000 ∧ (ksRecOutcome s).normal = true ∧
    countTrue (votesOf (.outcome swRecOutcome) ++ votesOf (.outcome adRecOutcome) ++
      votesOf (.outcome (ksRecOutcome s))) = 2 ∧
    decisionOf (combine 1000 (1 / 100) (.outcome swRecOutcome) (.outcome adRecOutcome)
      (.outcome (ksRecOutcome s))) = some Decision.NORMAL := by
  have hsw : shapiroDecide (1 / 100) pRec = true := by
    rw [shapiroDecide, decide_eq_true_eq]
    norm_num [pRec]
  have had : adDecide (1 / 100) a2Rec = false := by
    rw [adDecide, decide_eq_false_iff_not]
    norm_num [adCritical, a2Rec]
  have hks : ksDecide (1 / 100) dRec s = true := by
    rw [ksDecide, decide_eq_true_eq]
    have hs : (0 : ℚ) < s := by linarith
    rw [lt_div_iff₀ hs]
    have h1 : dRec * s ≤ dRec * 32 :=
      mul_le_mul_of_nonneg_left h32 (by norm_num [dRec])
    have h2 : dRec * 32 < ksConstant (1 / 100) := by norm_num [dRec, ksConstant]
    linarith
  have hv1 : votesOf (.outcome swRecOutcome) = [true] := by
    rw [votesOf_outcome, show swRecOutcome.aplicavel = true from rfl, if_pos rfl,
      show swRecOutcome.normal = true from hsw]
  have hv2 : votesOf (.outcome adRecOutcome) = [false] := by
    rw [votesOf_outcome, show adRecOutcome.aplicavel = true from rfl, if_pos rfl,
      show adRecOutcome.normal = false from had]
  have hv3 : votesOf (.outcome (ksRecOutcome s)) = [true] := by
    rw [votesOf_outcome, show (ksRecOutcome s).aplicavel = true from rfl, if_pos rfl,
      show (ksRecOutcome s).normal = true from hks]
  refine ⟨rfl, ?_, hsw, ?_, had, ?_, hks, ?_, ?_⟩
  · rw [abs_le]
    constructor <;> norm_num [pRec]
  · rw [abs_le]
    constructor <;> norm_num [a2Rec]
  · rw [abs_le]
    constructor <;> norm_num [dRec]
  · rw [hv1, hv2, hv3]
    rfl
  · rw [decisionOf_combine, hv1, hv2, hv3]
    rfl

theorem recorded_run_scenario_witness :
    ((31 : ℚ) ≤ 63 / 2 ∧ (63 : ℚ) / 2 ≤ 32) ∧
    (swRecOutcome.aplicavel = true ∧
      |pRec - 1 / 2| ≤ 1 / 1000000 ∧ swRecOutcome.normal = true ∧
      |a2Rec - 10062 / 10| ≤ 1 / 1000 ∧ adRecOutcome.normal = false ∧
      |dRec - 159 / 10000| ≤ 1 / 10000 ∧ (ksRecOutcome (63 / 2)).normal = true ∧
      countTrue (votesOf (.outcome swRecOutcome) ++ votesOf (.outcome adRecOutcome) ++
        votesOf (.outcome (ksRecOutcome (63 / 2)))) = 2 ∧
      decisionOf (combine 1000 (1 / 100) (.outcome swRecOutcome) (.outcome adRecOutcome)
        (.outcome (ksRecOutcome (63 / 2)))) = some Decision.NORMAL) :=
  ⟨⟨by norm_num, by norm_num⟩,
    recorded_run_scenario (63 / 2) (by norm_num) (by norm_num)⟩

/-- Claim C10: the recorded run's serialized Shapiro-Wilk outcome carries
estatistica = 0.0 while p_valor ≈ 0.5 and normal = true; moreover the
engine's Shapiro-Wilk verdict does not depend on the roystonW weighting
(the exposed statistic) at all, so the p-value and decision cannot be
inferred from it. -/
theorem shapiro_statistic_uninformative (u1 u2 : Oracle) (xs : List ℚ) (alpha : ℚ)
    (hphi : u1.phi = u2.phi) (hz : u1.roystonZ = u2.roystonZ) :
    normalFlagOf (realizar_teste_shapiro u1 xs alpha) =
      normalFlagOf (realizar_teste_shapiro u2 xs alpha) ∧
    swRecOutcome.estatistica = some 0 ∧
    |pRec - 1 / 2| ≤ 1 / 1000000 ∧
    swRecOutcome.normal = true := by
  have hp : shapiroP u1 xs = shapiroP u2 xs := by rw [shapiroP, shapiroP, hphi, hz]
  refine ⟨?_, rfl, ?_, ?_⟩
  · unfold realizar_teste_shapiro
    by_cases hv : sampleVariance xs = 0
    · rw [if_pos hv, if_pos hv]
    · rw [if_neg hv, if_neg hv]
      by_cases hr : 3 ≤ xs.length ∧ xs.length ≤ 5000
      · rw [if_pos hr, if_pos hr]
        simp [normalFlagOf, hp]
      · rw [if_neg hr, if_neg hr]
  · rw [abs_le]
    constructor <;> norm_num [pRec]
  · show shapiroDecide (1 / 100) pRec = true
    rw [shapiroDecide, decide_eq_true_eq]
    norm_num [pRec]

theorem shapiro_statistic_uninformative_witness :
    (trivOracle.phi = trivOracle.phi ∧ trivOracle.roystonZ = trivOracle.roystonZ) ∧
    (normalFlagOf (realizar_teste_shapiro trivOracle [0, 1, 2] (1 / 20)) =
        normalFlagOf (realizar_teste_shapiro trivOracle [0, 1, 2] (1 / 20)) ∧
      swRecOutcome.estatistica = some 0 ∧
      |pRec - 1 / 2| ≤ 1 / 1000000 ∧
      swRecOutcome.normal = true) :=
  ⟨⟨rfl, rfl⟩,
    shapiro_statistic_uninformative trivOracle trivOracle [0, 1, 2] (1 / 20) rfl rfl⟩

end Normalidade
